import Mathlib

/-!
# Verification of the stock-quotes retrieval-and-query engine

A shallow embedding of `stock_quotes_lib/stock_quotes.py`: the Alpha Vantage
client with its per-(symbol, resolution) cache, the module-level client
singleton, and the three public operations `lookup`, `get_min`, `get_max`.

Modelling conventions:
* Python exceptions are values of `PyExn`, tagging the Python exception
  class that is raised (`ValueError` vs plain `Exception`); an operation
  returns `Except PyExn result` together with the module state it leaves
  behind and the list of remote fetches it attempted.
* Prices are scaled integers (hundredths of a currency unit); the code's
  float parsing is order/equality-preserving on the decimal data the
  provider sends, and every property verified here is about comparisons
  and equality, not rounding.
* Dates are canonical `YYYY-MM-DD` strings; chronological order on such
  strings is exactly lexicographic order on their characters, which is the
  order `pandas` uses once the index is parsed to timestamps.  String
  comparison and upper-casing are implemented over `String.data` because
  the core iterator-based `String` functions do not reduce in the kernel.
* The remote HTTP boundary (`requests.get`) is a function from the request
  parameters (symbol, outputsize) to an outcome: a transport-level
  exception or an HTTP response with a status code and a parsed JSON body.
-/

/-- The Python exception class raised by an operation, with its message:
`ValueError msg` or a plain `Exception msg` (the `raise Exception(...)`
calls in `get_daily_time_series`; transport errors from `requests` are
likewise not `ValueError`). -/
inductive PyExn where
  | valueError (msg : String)
  | exception (msg : String)
deriving DecidableEq, Repr

deriving instance DecidableEq for Except

/-- The Python class name a handler would catch. -/
def PyExn.className : PyExn → String
  | .valueError _ => "ValueError"
  | .exception _ => "Exception"

/-- One row of the daily time-series DataFrame: columns `open`, `high`,
`low`, `close`, `volume` (renamed from the provider's `1. open`, ... keys),
indexed by date.  `open` is a Lean keyword, hence the field name `open_`.
Prices are scaled integers, see the header comment. -/
structure Bar where
  date : String
  open_ : Int
  high : Int
  low : Int
  close : Int
  volume : Int
deriving DecidableEq, Repr

/-- The dictionary `lookup` returns. -/
structure BarResult where
  symbol : String
  date : String
  open_ : Int
  high : Int
  low : Int
  close : Int
  volume : Int
deriving DecidableEq, Repr

/-- The dictionary `get_min` returns. -/
structure MinResult where
  symbol : String
  min_price : Int
  date : String
  period : String
deriving DecidableEq, Repr

/-- The dictionary `get_max` returns. -/
structure MaxResult where
  symbol : String
  max_price : Int
  date : String
  period : String
deriving DecidableEq, Repr

/-- Lexicographic order on character lists (by code point). -/
def charListLt : List Char → List Char → Bool
  | [], [] => false
  | [], _ :: _ => true
  | _ :: _, [] => false
  | a :: as, b :: bs =>
    if a.toNat < b.toNat then true
    else if b.toNat < a.toNat then false
    else charListLt as bs

/-- Chronological order on canonical `YYYY-MM-DD` date strings: for such
strings, timestamp order (what `df.sort_index` and `idxmin`/`idxmax`
tie-breaking see) coincides with lexicographic order on the characters. -/
def dateLt (a b : String) : Bool := charListLt a.data b.data

/-- `a` is the same date as `b` or an earlier one. -/
def dateLe (a b : String) : Prop := dateLt a b = true ∨ a = b

/-- Insert a bar into a date-descending list (helper for `sortDesc`). -/
def insertDesc (b : Bar) : List Bar → List Bar
  | [] => [b]
  | c :: t => if dateLt c.date b.date then b :: c :: t else c :: insertDesc b t

/-- `df.sort_index(ascending=False)`: sort the parsed rows by date, newest
first.  The JSON object keys are unique dates, so stability is immaterial. -/
def sortDesc : List Bar → List Bar
  | [] => []
  | b :: t => insertDesc b (sortDesc t)

/-- The parsed JSON body of an Alpha Vantage response: whether it carries
an `"Error Message"` entry, and whether it carries a
`"Time Series (Daily)"` entry (already parsed into rows; the column
renaming and numeric conversion of `get_daily_time_series` are recorded in
the `Bar` fields). -/
structure AVBody where
  errorMessage : Option String
  timeSeries : Option (List Bar)

/-- Outcome of one `requests.get` call: the transport raised, or an HTTP
response with a status code, raw text and parsed JSON body arrived. -/
inductive FetchOutcome where
  | transportError (msg : String)
  | httpResponse (status : Nat) (text : String) (body : AVBody)

/-- The remote provider as a black box: what comes back for each
(symbol, outputsize) request.  Claims quantify over this. -/
def Source : Type := String → String → FetchOutcome

/-- `str.upper()` over the character data. -/
def pyUpper (s : String) : String := String.mk (s.data.map Char.toUpper)

/-- `cache_key = f"{symbol.upper()}_daily_{outputsize}"`. -/
def cache_key (symbol outputsize : String) : String :=
  pyUpper symbol ++ "_daily_" ++ outputsize

/-- Python dict membership/indexing for the client cache. -/
def findCache : List (String × List Bar) → String → Option (List Bar)
  | [], _ => none
  | (k, v) :: t, key => if k = key then some v else findCache t key

/-- The response-handling part of `get_daily_time_series`, i.e. everything
after `requests.get` and before the cache store: status check, provider
error check, payload-shape check, then DataFrame construction with the
descending date sort. -/
def parse_av_response : FetchOutcome → Except PyExn (List Bar)
  | .transportError m => .error (.exception m)
  | .httpResponse status text body =>
    if status ≠ 200 then
      .error (.exception ("API request failed with status code " ++ toString status ++ ": " ++ text))
    else
      match body.errorMessage with
      | some m => .error (.exception ("API returned an error: " ++ m))
      | none =>
        match body.timeSeries with
        | none => .error (.exception "Unexpected API response format")
        | some ts => .ok (sortDesc ts)

/-- `AlphaVantageClient`: the bound credential and the instance cache
`self._cache` mapping cache keys to DataFrames. -/
structure AlphaVantageClient where
  api_key : String
  cache : List (String × List Bar)
deriving DecidableEq

/-- `AlphaVantageClient.get_daily_time_series`: serve from `self._cache`
when the key is present, otherwise perform the remote request, parse it,
and only on full success store the DataFrame under the key.  The third
component records the remote fetches attempted by this call
(`(symbol, outputsize)` pairs handed to `requests.get`). -/
def AlphaVantageClient.get_daily_time_series (c : AlphaVantageClient) (src : Source)
    (symbol outputsize : String) :
    Except PyExn (List Bar) × AlphaVantageClient × List (String × String) :=
  let key := cache_key symbol outputsize
  match findCache c.cache key with
  | some df => (.ok df, c, [])
  | none =>
    match parse_av_response (src symbol outputsize) with
    | .error e => (.error e, c, [(symbol, outputsize)])
    | .ok df => (.ok df, { c with cache := (key, df) :: c.cache }, [(symbol, outputsize)])

/-- The module-level globals `_client` and `_client_api_key`. -/
structure ModuleState where
  client : Option AlphaVantageClient
  client_api_key : Option String
deriving DecidableEq

/-- Module state at import time: no client, no bound key. -/
def st0 : ModuleState := { client := none, client_api_key := none }

/-- The unchanging outside world: the remote provider and the
`ALPHA_VANTAGE_API_KEY` environment variable. -/
structure World where
  source : Source
  env_api_key : Option String

/-- Python truthiness of an optional string: `None` and `""` are falsy. -/
def truthy : Option String → Option String
  | some s => if s = "" then none else some s
  | none => none

/-- `AlphaVantageClient.__init__`: `self.api_key = api_key or
os.environ.get("ALPHA_VANTAGE_API_KEY")`, raising `ValueError` when the
result is falsy; the fresh instance starts with an empty cache. -/
def AlphaVantageClient.init (env api_key : Option String) :
    Except PyExn AlphaVantageClient :=
  match truthy (match truthy api_key with | some s => some s | none => env) with
  | none => .error (.valueError "Alpha Vantage API key is required. Either pass it directly or set the ALPHA_VANTAGE_API_KEY environment variable.")
  | some k => .ok { api_key := k, cache := [] }

/-- `_get_client`: reuse the global client unless it does not exist yet or
a different non-`None` key is supplied, in which case a fresh client (with
an empty cache) is constructed and both globals are reassigned.  When the
constructor raises, the globals keep their previous values. -/
def _get_client (w : World) (st : ModuleState) (api_key : Option String) :
    Except PyExn (AlphaVantageClient × ModuleState) :=
  match st.client with
  | none =>
    match AlphaVantageClient.init w.env_api_key api_key with
    | .error e => .error e
    | .ok c => .ok (c, { client := some c, client_api_key := api_key })
  | some c0 =>
    if api_key ≠ none ∧ api_key ≠ st.client_api_key then
      match AlphaVantageClient.init w.env_api_key api_key with
      | .error e => .error e
      | .ok c => .ok (c, { client := some c, client_api_key := api_key })
    else
      .ok (c0, st)

/-- The global `_client` refers to the (mutable) client object; after a
method call mutated the client's cache, the module state holds the updated
client. -/
def setClient (st : ModuleState) (c : AlphaVantageClient) : ModuleState :=
  { st with client := some c }

/-- Split a character list on `'-'` (the separator structure `strptime`
demands of `"%Y-%m-%d"`). -/
def splitOnDash : List Char → List (List Char)
  | [] => [[]]
  | c :: t =>
    if c = '-' then [] :: splitOnDash t
    else
      match splitOnDash t with
      | [] => [[c]]
      | g :: gs => (c :: g) :: gs

/-- Numeric value of a digit string. -/
def charsToNat (cs : List Char) : Nat :=
  cs.foldl (fun n c => 10 * n + (c.toNat - 48)) 0

/-- Days in a month, Gregorian, as `datetime` validates them. -/
def daysInMonth (y m : Nat) : Nat :=
  if m = 2 then
    if (y % 4 = 0 ∧ y % 100 ≠ 0) ∨ y % 400 = 0 then 29 else 28
  else if m = 4 ∨ m = 6 ∨ m = 9 ∨ m = 11 then 30 else 31

/-- `datetime.strptime(date, "%Y-%m-%d")`: three dash-separated digit
groups (`%Y` up to four digits, `%m`/`%d` up to two), then calendar
validation (`datetime` requires year ≥ 1, month 1–12, day within the
month).  Returns the components, or `none` when `strptime` would raise
`ValueError`. -/
def parse_date (s : String) : Option (Nat × Nat × Nat) :=
  match splitOnDash s.data with
  | [ys, ms, ds] =>
    if ys.length ≥ 1 && ys.length ≤ 4 && ys.all Char.isDigit
        && ms.length ≥ 1 && ms.length ≤ 2 && ms.all Char.isDigit
        && ds.length ≥ 1 && ds.length ≤ 2 && ds.all Char.isDigit then
      let y := charsToNat ys
      let m := charsToNat ms
      let d := charsToNat ds
      if 1 ≤ y ∧ 1 ≤ m ∧ m ≤ 12 ∧ 1 ≤ d ∧ d ≤ daysInMonth y m then
        some (y, m, d)
      else none
    else none
  | _ => none

/-- Left-pad a decimal rendering with zeros. -/
def zfill (w : Nat) (s : String) : String :=
  if s.data.length < w then String.mk (List.replicate (w - s.data.length) '0') ++ s
  else s

/-- `date_obj.strftime("%Y-%m-%d")` after a successful parse: the
canonical zero-padded form of the validated date, or `none` when parsing
failed.  `lookup` compares this canonical form against the DataFrame's
(equally canonical) index strings. -/
def normDate (s : String) : Option String :=
  match parse_date s with
  | some (y, m, d) =>
    some (zfill 4 (Nat.repr y) ++ "-" ++ zfill 2 (Nat.repr m) ++ "-" ++ zfill 2 (Nat.repr d))
  | none => none

/-- `df_dates.index(date_str)` followed by `df.loc[...]`: the first row
whose date equals the canonical date string. -/
def findDate (df : List Bar) (date_str : String) : Option Bar :=
  df.find? (fun b => b.date = date_str)

/-- The dictionary `lookup` builds on success: the symbol is echoed as
passed (not upper-cased), the date in canonical form, and the row's five
columns. -/
def mkBarResult (symbol date_str : String) (b : Bar) : BarResult :=
  { symbol := symbol, date := date_str, open_ := b.open_, high := b.high,
    low := b.low, close := b.close, volume := b.volume }

/-- `lookup(symbol, date, api_key)`: resolve the client, validate the date
string, try the compact series, escalate to the full series when the date
is absent, and raise `ValueError` when it is absent from both. -/
def lookup (w : World) (st : ModuleState) (symbol date : String)
    (api_key : Option String) :
    Except PyExn BarResult × ModuleState × List (String × String) :=
  match _get_client w st api_key with
  | .error e => (.error e, st, [])
  | .ok (client, st1) =>
    match normDate date with
    | none =>
      (.error (.valueError ("Invalid date format: " ++ date ++ ". Use YYYY-MM-DD.")), st1, [])
    | some date_str =>
      match client.get_daily_time_series w.source symbol "compact" with
      | (.error e, c1, log1) => (.error e, setClient st1 c1, log1)
      | (.ok df, c1, log1) =>
        match findDate df date_str with
        | some b => (.ok (mkBarResult symbol date_str b), setClient st1 c1, log1)
        | none =>
          match c1.get_daily_time_series w.source symbol "full" with
          | (.error e, c2, log2) => (.error e, setClient st1 c2, log1 ++ log2)
          | (.ok df2, c2, log2) =>
            match findDate df2 date_str with
            | some b => (.ok (mkBarResult symbol date_str b), setClient st1 c2, log1 ++ log2)
            | none =>
              (.error (.valueError ("No data available for " ++ symbol ++ " on " ++ date_str)),
               setClient st1 c2, log1 ++ log2)

/-- `df.head(n)` with pandas semantics: the first `n` rows for `n ≥ 0`,
and all but the last `|n|` rows for negative `n`. -/
def headPy (n : Int) (xs : List Bar) : List Bar :=
  if 0 ≤ n then xs.take n.toNat else xs.take (xs.length - (-n).toNat)

/-- Fold computing `df_subset["low"].idxmin()`-with-its-row: the first row
(in iteration order) attaining the minimal `low` — `idxmin` keeps the
first occurrence, so a later row replaces the accumulator only when
strictly smaller. -/
def argmin_low (b : Bar) (bs : List Bar) : Bar :=
  bs.foldl (fun acc x => if x.low < acc.low then x else acc) b

/-- `df_subset["low"].idxmin()` on a possibly empty subset: pandas raises
`ValueError("attempt to get argmin of an empty sequence")` on an empty
series (the `.min()` on the line before merely yields `NaN`). -/
def idxmin_low : List Bar → Except PyExn Bar
  | [] => .error (.valueError "attempt to get argmin of an empty sequence")
  | b :: bs => .ok (argmin_low b bs)

/-- First row attaining the maximal `high` (pandas `idxmax`). -/
def argmax_high (b : Bar) (bs : List Bar) : Bar :=
  bs.foldl (fun acc x => if acc.high < x.high then x else acc) b

/-- `df_subset["high"].idxmax()` on a possibly empty subset. -/
def idxmax_high : List Bar → Except PyExn Bar
  | [] => .error (.valueError "attempt to get argmax of an empty sequence")
  | b :: bs => .ok (argmax_high b bs)

/-- `get_min(symbol, n, api_key)`: pick the resolution from `n` (compact
iff `n <= 100`), fetch, take `df.head(n)`, and report the minimal `low`
with its date; the result's `min_price` is `df_subset["low"].min()`, which
is the `low` of the `idxmin` row. -/
def get_min (w : World) (st : ModuleState) (symbol : String) (n : Int)
    (api_key : Option String) :
    Except PyExn MinResult × ModuleState × List (String × String) :=
  match _get_client w st api_key with
  | .error e => (.error e, st, [])
  | .ok (client, st1) =>
    let outputsize := if n ≤ 100 then "compact" else "full"
    match client.get_daily_time_series w.source symbol outputsize with
    | (.error e, c1, log1) => (.error e, setClient st1 c1, log1)
    | (.ok df, c1, log1) =>
      match idxmin_low (headPy n df) with
      | .error e => (.error e, setClient st1 c1, log1)
      | .ok b =>
        (.ok { symbol := pyUpper symbol, min_price := b.low, date := b.date,
               period := "last " ++ toString n ++ " trading days" },
         setClient st1 c1, log1)

/-- `get_max(symbol, n, api_key)`: symmetric to `get_min` over `high`. -/
def get_max (w : World) (st : ModuleState) (symbol : String) (n : Int)
    (api_key : Option String) :
    Except PyExn MaxResult × ModuleState × List (String × String) :=
  match _get_client w st api_key with
  | .error e => (.error e, st, [])
  | .ok (client, st1) =>
    let outputsize := if n ≤ 100 then "compact" else "full"
    match client.get_daily_time_series w.source symbol outputsize with
    | (.error e, c1, log1) => (.error e, setClient st1 c1, log1)
    | (.ok df, c1, log1) =>
      match idxmax_high (headPy n df) with
      | .error e => (.error e, setClient st1 c1, log1)
      | .ok b =>
        (.ok { symbol := pyUpper symbol, max_price := b.high, date := b.date,
               period := "last " ++ toString n ++ " trading days" },
         setClient st1 c1, log1)

/-- The exception class of a failed computation (`"no error"` on success):
what a Python `except SomeClass:` clause can discriminate on. -/
def errClassOf : Except PyExn α → String
  | .error e => e.className
  | .ok _ => "no error"

/-! ## Concrete fixtures (fake sources used by witnesses and counterexamples) -/

/-- The spec's end-to-end bar: `AAPL` on `2025-03-28` with
`open=221.67, high=223.81, low=217.68, close=217.90, volume=39818617`
(prices in hundredths). -/
def aaplBar : Bar :=
  { date := "2025-03-28", open_ := 22167, high := 22381, low := 21768,
    close := 21790, volume := 39818617 }

/-- A much older bar, present only in full history. -/
def oldBar : Bar :=
  { date := "1999-01-04", open_ := 100, high := 110, low := 90,
    close := 105, volume := 1000 }

/-- Fake source whose every response is the one-bar `AAPL` series. -/
def srcAAPL : Source := fun _ _ =>
  .httpResponse 200 "" { errorMessage := none, timeSeries := some [aaplBar] }

def wAAPL : World := { source := srcAAPL, env_api_key := none }

/-- Fake source whose compact series has only the recent bar and whose
full series also has the 1999 bar. -/
def srcHist : Source := fun _ osz =>
  .httpResponse 200 ""
    { errorMessage := none,
      timeSeries := some (if osz = "full" then [aaplBar, oldBar] else [aaplBar]) }

def wHist : World := { source := srcHist, env_api_key := none }

/-- Fake source that always answers HTTP 500. -/
def src500 : Source := fun _ _ =>
  .httpResponse 500 "oops" { errorMessage := none, timeSeries := none }

/-- A module state with a bound credential `"old"` and a cached compact
`AAPL` series. -/
def stW : ModuleState :=
  { client := some { api_key := "old", cache := [(cache_key "AAPL" "compact", [aaplBar])] },
    client_api_key := some "old" }

/-- The spec's tie-break example, descending, with a `low` tie on the two
most recent bars (and a `high` tie there as well). -/
def tieBar1 : Bar :=
  { date := "2025-01-03", open_ := 1000, high := 2000, low := 1000, close := 1000, volume := 1 }

def tieBar2 : Bar :=
  { date := "2025-01-02", open_ := 1000, high := 2000, low := 1000, close := 1000, volume := 1 }

def tieBar3 : Bar :=
  { date := "2025-01-01", open_ := 1000, high := 1500, low := 1200, close := 1000, volume := 1 }

/-- Fake source serving the tie-break series at every resolution. -/
def srcTie : Source := fun _ _ =>
  .httpResponse 200 "" { errorMessage := none, timeSeries := some [tieBar1, tieBar2, tieBar3] }

def wTie : World := { source := srcTie, env_api_key := none }

/-! ## Helper lemmas -/

theorem charListLt_step (x y : Char) (as bs : List Char)
    (h1 : ¬ x.toNat < y.toNat) (h3 : ¬ y.toNat < x.toNat) :
    charListLt (x :: as) (y :: bs) = charListLt as bs := by
  simp [charListLt, h1, h3]

/-- Lexicographic order on character lists is transitive. -/
theorem charListLt_trans (a : List Char) : ∀ (b c : List Char),
    charListLt a b = true → charListLt b c = true → charListLt a c = true := by
  induction a with
  | nil =>
    intro b c _ hbc
    cases c with
    | nil => cases b <;> simp [charListLt] at hbc
    | cons z cs => simp [charListLt]
  | cons x as ih =>
    intro b c hab hbc
    cases b with
    | nil => simp [charListLt] at hab
    | cons y bs =>
      cases c with
      | nil => simp [charListLt] at hbc
      | cons z cs =>
        have hab' : x.toNat < y.toNat ∨ (x.toNat = y.toNat ∧ charListLt as bs = true) := by
          by_cases h1 : x.toNat < y.toNat
          · exact .inl h1
          · by_cases h3 : y.toNat < x.toNat
            · simp [charListLt, h1, h3] at hab
            · exact .inr ⟨by omega, by rwa [charListLt_step x y as bs h1 h3] at hab⟩
        have hbc' : y.toNat < z.toNat ∨ (y.toNat = z.toNat ∧ charListLt bs cs = true) := by
          by_cases h1 : y.toNat < z.toNat
          · exact .inl h1
          · by_cases h3 : z.toNat < y.toNat
            · simp [charListLt, h1, h3] at hbc
            · exact .inr ⟨by omega, by rwa [charListLt_step y z bs cs h1 h3] at hbc⟩
        rcases hab' with h | ⟨hxy, htab⟩
        · rcases hbc' with h2 | ⟨hyz, _⟩
          · simp [charListLt, Nat.lt_trans h h2]
          · simp [charListLt, hyz ▸ h]
        · rcases hbc' with h2 | ⟨hyz, htbc⟩
          · simp [charListLt, hxy ▸ h2]
          · have hxz : x.toNat = z.toNat := hxy.trans hyz
            have h1 : ¬ x.toNat < z.toNat := by omega
            have h3 : ¬ z.toNat < x.toNat := by omega
            rw [charListLt_step x z as cs h1 h3]
            exact ih bs cs htab htbc

/-- `dateLt` is transitive. -/
theorem dateLt_trans {a b c : String} (h1 : dateLt a b = true) (h2 : dateLt b c = true) :
    dateLt a c = true :=
  charListLt_trans a.data b.data c.data h1 h2

/-- A strictly earlier-or-equal date stays earlier-or-equal across `dateLe`. -/
theorem dateLt_le_trans {a b c : String} (h1 : dateLt a b = true) (h2 : dateLe b c) :
    dateLe a c := by
  rcases h2 with h2 | rfl
  · exact .inl (dateLt_trans h1 h2)
  · exact .inl h1

theorem dateLe_refl (a : String) : dateLe a a := .inr rfl

/-- Descending-date relation between two bars (the Series invariant
`bar[i].date > bar[i+1].date` of the spec, stated pairwise). -/
def DescPair (a c : Bar) : Prop := dateLt c.date a.date = true

instance : DecidableRel DescPair := fun a c => by
  unfold DescPair
  infer_instance

theorem argmin_low_cons (b x : Bar) (t : List Bar) :
    argmin_low b (x :: t) = argmin_low (if x.low < b.low then x else b) t := rfl

theorem argmax_high_cons (b x : Bar) (t : List Bar) :
    argmax_high b (x :: t) = argmax_high (if b.high < x.high then x else b) t := rfl

/-- The `idxmin` row is one of the rows. -/
theorem argmin_low_mem (b : Bar) (bs : List Bar) :
    argmin_low b bs = b ∨ argmin_low b bs ∈ bs := by
  induction bs generalizing b with
  | nil => exact .inl rfl
  | cons x t ih =>
    rw [argmin_low_cons]
    by_cases hx : x.low < b.low
    · rw [if_pos hx]
      rcases ih x with h | h
      · exact .inr (by simp [h])
      · exact .inr (List.mem_cons_of_mem x h)
    · rw [if_neg hx]
      rcases ih b with h | h
      · exact .inl h
      · exact .inr (List.mem_cons_of_mem x h)

/-- The `idxmin` row's `low` is minimal among the rows. -/
theorem argmin_low_le (b : Bar) (bs : List Bar) :
    (argmin_low b bs).low ≤ b.low ∧ ∀ x ∈ bs, (argmin_low b bs).low ≤ x.low := by
  induction bs generalizing b with
  | nil => exact ⟨le_refl _, by simp⟩
  | cons x t ih =>
    rw [argmin_low_cons]
    by_cases hx : x.low < b.low
    · rw [if_pos hx]
      obtain ⟨h1, h2⟩ := ih x
      refine ⟨le_trans h1 (le_of_lt hx), ?_⟩
      intro y hy
      rcases List.mem_cons.mp hy with rfl | hy
      · exact h1
      · exact h2 y hy
    · rw [if_neg hx]
      obtain ⟨h1, h2⟩ := ih b
      refine ⟨h1, ?_⟩
      intro y hy
      rcases List.mem_cons.mp hy with rfl | hy
      · exact le_trans h1 (not_lt.mp hx)
      · exact h2 y hy

/-- The `idxmax` row is one of the rows. -/
theorem argmax_high_mem (b : Bar) (bs : List Bar) :
    argmax_high b bs = b ∨ argmax_high b bs ∈ bs := by
  induction bs generalizing b with
  | nil => exact .inl rfl
  | cons x t ih =>
    rw [argmax_high_cons]
    by_cases hx : b.high < x.high
    · rw [if_pos hx]
      rcases ih x with h | h
      · exact .inr (by simp [h])
      · exact .inr (List.mem_cons_of_mem x h)
    · rw [if_neg hx]
      rcases ih b with h | h
      · exact .inl h
      · exact .inr (List.mem_cons_of_mem x h)

/-- The `idxmax` row's `high` is maximal among the rows. -/
theorem argmax_high_le (b : Bar) (bs : List Bar) :
    b.high ≤ (argmax_high b bs).high ∧ ∀ x ∈ bs, x.high ≤ (argmax_high b bs).high := by
  induction bs generalizing b with
  | nil => exact ⟨le_refl _, by simp⟩
  | cons x t ih =>
    rw [argmax_high_cons]
    by_cases hx : b.high < x.high
    · rw [if_pos hx]
      obtain ⟨h1, h2⟩ := ih x
      refine ⟨le_trans (le_of_lt hx) h1, ?_⟩
      intro y hy
      rcases List.mem_cons.mp hy with rfl | hy
      · exact h1
      · exact h2 y hy
    · rw [if_neg hx]
      obtain ⟨h1, h2⟩ := ih b
      refine ⟨h1, ?_⟩
      intro y hy
      rcases List.mem_cons.mp hy with rfl | hy
      · exact le_trans (not_lt.mp hx) h1
      · exact h2 y hy

/-- Tie-break: a row tying the `idxmin` row's minimal `low` can only sit
at or after it in descending-date order, so its date is not more recent. -/
theorem argmin_low_tie (bs : List Bar) : ∀ (b : Bar),
    (b :: bs).Pairwise DescPair →
    ∀ x, (x = b ∨ x ∈ bs) → x.low = (argmin_low b bs).low →
      dateLe x.date (argmin_low b bs).date := by
  induction bs with
  | nil =>
    intro b _ x hx _
    rcases hx with rfl | hx
    · exact dateLe_refl _
    · cases hx
  | cons x0 t ih =>
    intro b hp x hx htie
    rw [argmin_low_cons] at htie ⊢
    obtain ⟨hhead, htl⟩ := List.pairwise_cons.mp hp
    obtain ⟨hhead2, htl2⟩ := List.pairwise_cons.mp htl
    by_cases hx0 : x0.low < b.low
    · rw [if_pos hx0] at htie ⊢
      rcases hx with rfl | hx
      · exfalso
        obtain ⟨h1, _⟩ := argmin_low_le x0 t
        omega
      · exact ih x0 htl x (List.mem_cons.mp hx) htie
    · rw [if_neg hx0] at htie ⊢
      have hpb : (b :: t).Pairwise DescPair :=
        List.pairwise_cons.mpr ⟨fun y hy => hhead y (List.mem_cons_of_mem x0 hy), htl2⟩
      rcases hx with rfl | hx
      · exact ih x hpb x (Or.inl rfl) htie
      · rcases List.mem_cons.mp hx with rfl | hx
        · obtain ⟨h1, _⟩ := argmin_low_le b t
          have hble : b.low ≤ x.low := not_lt.mp hx0
          have hbmin : b.low = (argmin_low b t).low := by omega
          have hbdate : dateLe b.date (argmin_low b t).date := ih b hpb b (Or.inl rfl) hbmin
          exact dateLt_le_trans (hhead x (List.mem_cons_self x t) : dateLt x.date b.date = true) hbdate
        · exact ih b hpb x (Or.inr hx) htie

/-- Tie-break: a row tying the `idxmax` row's maximal `high` can only sit
at or after it in descending-date order, so its date is not more recent. -/
theorem argmax_high_tie (bs : List Bar) : ∀ (b : Bar),
    (b :: bs).Pairwise DescPair →
    ∀ x, (x = b ∨ x ∈ bs) → x.high = (argmax_high b bs).high →
      dateLe x.date (argmax_high b bs).date := by
  induction bs with
  | nil =>
    intro b _ x hx _
    rcases hx with rfl | hx
    · exact dateLe_refl _
    · cases hx
  | cons x0 t ih =>
    intro b hp x hx htie
    rw [argmax_high_cons] at htie ⊢
    obtain ⟨hhead, htl⟩ := List.pairwise_cons.mp hp
    obtain ⟨hhead2, htl2⟩ := List.pairwise_cons.mp htl
    by_cases hx0 : b.high < x0.high
    · rw [if_pos hx0] at htie ⊢
      rcases hx with rfl | hx
      · exfalso
        obtain ⟨h1, _⟩ := argmax_high_le x0 t
        omega
      · exact ih x0 htl x (List.mem_cons.mp hx) htie
    · rw [if_neg hx0] at htie ⊢
      have hpb : (b :: t).Pairwise DescPair :=
        List.pairwise_cons.mpr ⟨fun y hy => hhead y (List.mem_cons_of_mem x0 hy), htl2⟩
      rcases hx with rfl | hx
      · exact ih x hpb x (Or.inl rfl) htie
      · rcases List.mem_cons.mp hx with rfl | hx
        · obtain ⟨h1, _⟩ := argmax_high_le b t
          have hble : x.high ≤ b.high := not_lt.mp hx0
          have hbmax : b.high = (argmax_high b t).high := by omega
          have hbdate : dateLe b.date (argmax_high b t).date := ih b hpb b (Or.inl rfl) hbmax
          exact dateLt_le_trans (hhead x (List.mem_cons_self x t) : dateLt x.date b.date = true) hbdate
        · exact ih b hpb x (Or.inr hx) htie

/-- `df.head(n)` keeps a sublist of the rows. -/
theorem headPy_sublist (n : Int) (xs : List Bar) : (headPy n xs).Sublist xs := by
  unfold headPy
  split <;> exact List.take_sublist _ _

/-- `df.head(n)` of a descending series is descending. -/
theorem headPy_pairwise (n : Int) (xs : List Bar) (hp : xs.Pairwise DescPair) :
    (headPy n xs).Pairwise DescPair :=
  hp.sublist (headPy_sublist n xs)

/-- For `0 < n`, `df.head(n)` takes the first `min n (len df)` rows. -/
theorem headPy_pos (n : Int) (xs : List Bar) (hn : 0 ≤ n) :
    headPy n xs = xs.take n.toNat := by
  unfold headPy
  rw [if_pos hn]

/-! ### Unfolding lemmas for the client and module state -/

/-- From a fresh module state, any non-empty key binds a fresh client with
an empty cache. -/
theorem _get_client_st0 (w : World) (k : String) (hk : k ≠ "") :
    _get_client w st0 (some k) =
      .ok ({ api_key := k, cache := [] },
           { client := some { api_key := k, cache := [] }, client_api_key := some k }) := by
  simp [_get_client, st0, AlphaVantageClient.init, truthy, hk]

/-- Passing the currently bound key (or `none` when that is what is bound)
reuses the existing client untouched. -/
theorem _get_client_keep (w : World) (st : ModuleState) (c : AlphaVantageClient)
    (hc : st.client = some c) :
    _get_client w st st.client_api_key = .ok (c, st) := by
  simp [_get_client, hc]

theorem findCache_nil (key : String) : findCache [] key = none := rfl

theorem findCache_head (key : String) (df : List Bar) (t : List (String × List Bar)) :
    findCache ((key, df) :: t) key = some df := by
  simp [findCache]

/-- Cache hit: the stored DataFrame is returned, nothing is fetched. -/
theorem get_dts_hit (c : AlphaVantageClient) (src : Source) (s o : String) (df : List Bar)
    (h : findCache c.cache (cache_key s o) = some df) :
    c.get_daily_time_series src s o = (.ok df, c, []) := by
  simp [AlphaVantageClient.get_daily_time_series, h]

/-- Cache miss with a good response: one fetch, and the parsed DataFrame
is stored under the key. -/
theorem get_dts_miss_ok (c : AlphaVantageClient) (src : Source) (s o : String) (df : List Bar)
    (h0 : findCache c.cache (cache_key s o) = none)
    (h1 : parse_av_response (src s o) = .ok df) :
    c.get_daily_time_series src s o =
      (.ok df, { c with cache := (cache_key s o, df) :: c.cache }, [(s, o)]) := by
  simp [AlphaVantageClient.get_daily_time_series, h0, h1]

/-- Cache miss with a failing response: one attempted fetch, the error
propagates, the cache is untouched. -/
theorem get_dts_miss_err (c : AlphaVantageClient) (src : Source) (s o : String) (e : PyExn)
    (h0 : findCache c.cache (cache_key s o) = none)
    (h1 : parse_av_response (src s o) = .error e) :
    c.get_daily_time_series src s o = (.error e, c, [(s, o)]) := by
  simp [AlphaVantageClient.get_daily_time_series, h0, h1]

/-- Every failure of the response-handling pipeline is raised as a plain
`Exception` (the `SourceError` kind), never as `ValueError`. -/
theorem parse_av_response_error_class (r : FetchOutcome) (e : PyExn)
    (h : parse_av_response r = .error e) : e.className = "Exception" := by
  cases r with
  | transportError m =>
    simp [parse_av_response] at h
    rw [← h]
    rfl
  | httpResponse status text body =>
    by_cases hs : status ≠ 200
    · simp [parse_av_response, hs] at h
      rw [← h]
      rfl
    · cases hm : body.errorMessage with
      | some m =>
        simp [parse_av_response, hs, hm] at h
        rw [← h]
        rfl
      | none =>
        cases ht : body.timeSeries with
        | none =>
          simp [parse_av_response, hs, hm, ht] at h
          rw [← h]
          rfl
        | some ts => simp [parse_av_response, hs, hm, ht] at h

/-- Binding an unchanged key (also `none` when `none` is bound) keeps the
client and the globals untouched. -/
theorem _get_client_same_key (w : World) (c : AlphaVantageClient) (k : Option String) :
    _get_client w { client := some c, client_api_key := k } k =
      .ok (c, { client := some c, client_api_key := k }) := by
  simp [_get_client]

/-- Supplying a non-`None`, truthy key different from the bound one
replaces the client by a fresh one with an empty cache and rebinds both
globals. -/
theorem _get_client_swap (w : World) (st : ModuleState) (c : AlphaVantageClient) (k1 : String)
    (hc : st.client = some c) (hne : some k1 ≠ st.client_api_key) (hk : k1 ≠ "") :
    _get_client w st (some k1) =
      .ok ({ api_key := k1, cache := [] },
           { client := some { api_key := k1, cache := [] }, client_api_key := some k1 }) := by
  simp [_get_client, hc, hne, AlphaVantageClient.init, truthy, hk]

/-- The compact and full cache keys for a symbol differ (their lengths
differ), so the two resolutions occupy distinct cache entries. -/
theorem cache_key_compact_ne_full (s : String) :
    cache_key s "compact" ≠ cache_key s "full" := by
  intro h
  have hlen : (cache_key s "compact").data.length = (cache_key s "full").data.length := by
    rw [h]
  simp [cache_key, String.data_append] at hlen

/-- When `_get_client` hands back a fresh (empty-cache) client, `get_min`
attempts exactly one fetch, at the resolution selected from `n`. -/
theorem get_min_fresh_log (w : World) (st st1 : ModuleState) (api : Option String)
    (k s : String) (n : Int)
    (hg : _get_client w st api = .ok ({ api_key := k, cache := [] }, st1)) :
    (get_min w st s n api).2.2 = [(s, if n ≤ 100 then "compact" else "full")] := by
  simp only [get_min, hg]
  cases hp : parse_av_response (w.source s (if n ≤ 100 then "compact" else "full")) with
  | error e =>
    simp [AlphaVantageClient.get_daily_time_series, findCache, hp]
  | ok df =>
    simp only [AlphaVantageClient.get_daily_time_series, findCache, hp]
    cases hidx : idxmin_low (headPy n df) <;> simp [hidx]

/-- When `_get_client` hands back a fresh (empty-cache) client, `get_max`
attempts exactly one fetch, at the resolution selected from `n`. -/
theorem get_max_fresh_log (w : World) (st st1 : ModuleState) (api : Option String)
    (k s : String) (n : Int)
    (hg : _get_client w st api = .ok ({ api_key := k, cache := [] }, st1)) :
    (get_max w st s n api).2.2 = [(s, if n ≤ 100 then "compact" else "full")] := by
  simp only [get_max, hg]
  cases hp : parse_av_response (w.source s (if n ≤ 100 then "compact" else "full")) with
  | error e =>
    simp [AlphaVantageClient.get_daily_time_series, findCache, hp]
  | ok df =>
    simp only [AlphaVantageClient.get_daily_time_series, findCache, hp]
    cases hidx : idxmax_high (headPy n df) <;> simp [hidx]

/-! ## Claims -/

/-- **C2.**  For every symbol and every positive `n`, `get_min` and
`get_max` attempt exactly one remote fetch for the query, at the Recent
(compact) resolution iff `n ≤ 100` and at the Full resolution iff
`n > 100`; neither ever requests the other resolution.  (The witness
instantiates the boundary `n = 100` and `n = 101`.) -/
theorem get_min_get_max_resolution (w : World) (s k : String) (n : Int)
    (hk : k ≠ "") (hn : 0 < n) :
    (get_min w st0 s n (some k)).2.2 = [(s, if n ≤ 100 then "compact" else "full")]
  ∧ (get_max w st0 s n (some k)).2.2 = [(s, if n ≤ 100 then "compact" else "full")] :=
  ⟨get_min_fresh_log w st0 _ (some k) k s n (_get_client_st0 w k hk),
   get_max_fresh_log w st0 _ (some k) k s n (_get_client_st0 w k hk)⟩

/-- Witness for `get_min_get_max_resolution` at the `n = 100` / `n = 101`
boundary, on a concrete fake source. -/
theorem get_min_get_max_resolution_witness :
    ((get_min wAAPL st0 "AAPL" 100 (some "key")).2.2 = [("AAPL", "compact")]
      ∧ (get_max wAAPL st0 "AAPL" 100 (some "key")).2.2 = [("AAPL", "compact")])
  ∧ ((get_min wAAPL st0 "AAPL" 101 (some "key")).2.2 = [("AAPL", "full")]
      ∧ (get_max wAAPL st0 "AAPL" 101 (some "key")).2.2 = [("AAPL", "full")]) := by
  refine ⟨?_, ?_⟩
  · have h := get_min_get_max_resolution wAAPL "AAPL" "key" 100 (by decide) (by decide)
    simpa using h
  · have h := get_min_get_max_resolution wAAPL "AAPL" "key" 101 (by decide) (by decide)
    simpa using h

/-- **C4 counterexample.**  `get_min` with the non-positive window
`n = 0` does not fail with an invalid-argument error before fetching: it
performs a Recent fetch and only afterwards fails, with the pandas argmin
error raised by `idxmin` on the empty `df.head(0)`.  (`get_max` behaves
the same way.) -/
theorem get_min_nonpositive_n_still_fetches :
    (get_min wAAPL st0 "AAPL" 0 (some "key")).2.2 = [("AAPL", "compact")]
  ∧ (get_min wAAPL st0 "AAPL" 0 (some "key")).1 =
      .error (.valueError "attempt to get argmin of an empty sequence")
  ∧ (get_max wAAPL st0 "AAPL" 0 (some "key")).2.2 = [("AAPL", "compact")] := by
  refine ⟨by decide, by decide, by decide⟩

/-- **C4 (amended).**  A malformed date string makes `lookup` fail with
`ValueError` (the `InvalidArgumentError` kind) before any fetch is
attempted.  `get_min` and `get_max`, however, do not validate `n`: a
non-positive `n` is not rejected — it selects the Recent resolution
(since `n ≤ 100`) and a fetch is attempted before anything fails. -/
theorem invalid_argument_handling :
    (∀ (w : World) (st : ModuleState) (api : Option String) (c : AlphaVantageClient)
        (st1 : ModuleState) (s date : String),
      _get_client w st api = .ok (c, st1) → normDate date = none →
        (lookup w st s date api).1 =
            .error (.valueError ("Invalid date format: " ++ date ++ ". Use YYYY-MM-DD."))
          ∧ (lookup w st s date api).2.2 = [])
  ∧ (∀ (w : World) (s k : String) (n : Int), k ≠ "" → n ≤ 0 →
      (get_min w st0 s n (some k)).2.2 = [(s, "compact")]
        ∧ (get_max w st0 s n (some k)).2.2 = [(s, "compact")]) := by
  constructor
  · intro w st api c st1 s date hg hd
    constructor <;> simp [lookup, hg, hd]
  · intro w s k n hk hn
    have h100 : n ≤ 100 := by omega
    have hg := _get_client_st0 w k hk
    constructor
    · have h := get_min_fresh_log w st0 _ (some k) k s n hg
      rwa [if_pos h100] at h
    · have h := get_max_fresh_log w st0 _ (some k) k s n hg
      rwa [if_pos h100] at h

/-- Witness for `invalid_argument_handling` on concrete inputs: a
US-format date string is rejected with no fetch, and `n = 0` still
triggers a compact fetch. -/
theorem invalid_argument_handling_witness :
    ((lookup wAAPL st0 "AAPL" "03/28/2025" (some "key")).1 =
        .error (.valueError "Invalid date format: 03/28/2025. Use YYYY-MM-DD.")
      ∧ (lookup wAAPL st0 "AAPL" "03/28/2025" (some "key")).2.2 = [])
  ∧ ((get_min wAAPL st0 "AAPL" 0 (some "key2")).2.2 = [("AAPL", "compact")]
      ∧ (get_max wAAPL st0 "AAPL" 0 (some "key2")).2.2 = [("AAPL", "compact")]) := by
  constructor
  · have h := invalid_argument_handling.1 wAAPL st0 (some "key") _ _ "AAPL" "03/28/2025"
      (_get_client_st0 wAAPL "key" (by decide)) (by decide)
    have e1 : "Invalid date format: " ++ "03/28/2025" ++ ". Use YYYY-MM-DD." =
        "Invalid date format: 03/28/2025. Use YYYY-MM-DD." := by decide
    rwa [e1] at h
  · exact invalid_argument_handling.2 wAAPL "AAPL" "key2" 0 (by decide) (by decide)

/-- **C6.**  Whenever `get_daily_time_series` fails — transport failure,
non-200 status, provider-signalled `"Error Message"`, or missing
`"Time Series (Daily)"` payload — the error is a plain `Exception` (the
`SourceError` kind, never `ValueError`) and the client's cache is exactly
what it was before the call: no partial or empty series is installed. -/
theorem fetch_failure_no_partial_cache (c : AlphaVantageClient) (src : Source)
    (s o : String) (e : PyExn)
    (h : (c.get_daily_time_series src s o).1 = .error e) :
    (c.get_daily_time_series src s o).2.1 = c ∧ e.className = "Exception" := by
  cases hf : findCache c.cache (cache_key s o) with
  | some df =>
    rw [get_dts_hit c src s o df hf] at h
    simp at h
  | none =>
    cases hp : parse_av_response (src s o) with
    | error e2 =>
      have hr := get_dts_miss_err c src s o e2 hf hp
      rw [hr] at h
      simp at h
      subst h
      rw [hr]
      exact ⟨rfl, parse_av_response_error_class _ _ hp⟩
    | ok df =>
      rw [get_dts_miss_ok c src s o df hf hp] at h
      simp at h

/-- Witness for `fetch_failure_no_partial_cache`: an HTTP 500 answer
propagates as a plain `Exception` and leaves the empty cache empty. -/
theorem fetch_failure_no_partial_cache_witness :
    (({ api_key := "k", cache := [] } : AlphaVantageClient).get_daily_time_series
        src500 "A" "compact").2.1 = { api_key := "k", cache := [] }
  ∧ (PyExn.exception "API request failed with status code 500: oops").className =
      "Exception" :=
  fetch_failure_no_partial_cache { api_key := "k", cache := [] } src500 "A" "compact"
    (.exception "API request failed with status code 500: oops") (by decide)

/-- **C7.**  Once a credential is bound, calling an operation with a
different non-null (truthy) credential replaces the adapter wholesale:
`_get_client` installs a brand-new client whose cache is empty, so the
next query for any (symbol, resolution) — cached before or not — attempts
a fresh fetch (`get_min`/`get_max` log exactly one fetch at the selected
resolution, and `lookup`'s first fetch is the compact one). -/
theorem credential_swap_discards_cache (w : World) (st : ModuleState)
    (c : AlphaVantageClient) (k1 : String)
    (hc : st.client = some c) (hne : some k1 ≠ st.client_api_key) (hk : k1 ≠ "") :
    _get_client w st (some k1) =
      .ok ({ api_key := k1, cache := [] },
           { client := some { api_key := k1, cache := [] }, client_api_key := some k1 })
  ∧ (∀ (s : String) (n : Int),
      (get_min w st s n (some k1)).2.2 = [(s, if n ≤ 100 then "compact" else "full")]
        ∧ (get_max w st s n (some k1)).2.2 = [(s, if n ≤ 100 then "compact" else "full")])
  ∧ (∀ (s date ds : String), normDate date = some ds →
      (lookup w st s date (some k1)).2.2.head? = some (s, "compact")) := by
  have hg := _get_client_swap w st c k1 hc hne hk
  refine ⟨hg, fun s n => ⟨get_min_fresh_log w st _ (some k1) k1 s n hg,
                          get_max_fresh_log w st _ (some k1) k1 s n hg⟩, ?_⟩
  intro s date ds hd
  simp only [lookup, hg, hd]
  cases hp : parse_av_response (w.source s "compact") with
  | error e => simp [AlphaVantageClient.get_daily_time_series, findCache, hp]
  | ok df =>
    simp only [AlphaVantageClient.get_daily_time_series, findCache, hp]
    cases hfd : findDate df ds with
    | some b => simp [hfd]
    | none =>
      have hkne := cache_key_compact_ne_full s
      simp only [hfd, hkne, if_neg, if_false]
      cases hp2 : parse_av_response (w.source s "full") with
      | error e => simp [hkne, hp2]
      | ok df2 =>
        simp only [hkne, hp2]
        cases hfd2 : findDate df2 ds <;> simp [hkne, hfd2]

/-- Witness for `credential_swap_discards_cache`: with `"old"` bound and
a compact `AAPL` series cached, supplying `"new"` rebinds a fresh client
and the next queries fetch again. -/
theorem credential_swap_discards_cache_witness :
    _get_client wAAPL stW (some "new") =
      .ok ({ api_key := "new", cache := [] },
           { client := some { api_key := "new", cache := [] }, client_api_key := some "new" })
  ∧ (get_min wAAPL stW "AAPL" 5 (some "new")).2.2 = [("AAPL", "compact")]
  ∧ (lookup wAAPL stW "AAPL" "2025-03-28" (some "new")).2.2.head? =
      some ("AAPL", "compact") := by
  have h := credential_swap_discards_cache wAAPL stW
    { api_key := "old", cache := [(cache_key "AAPL" "compact", [aaplBar])] } "new"
    rfl (by decide) (by decide)
  refine ⟨h.1, ?_, h.2.2 "AAPL" "2025-03-28" "2025-03-28" (by decide)⟩
  have h5 : ((5 : Int) ≤ 100) := by decide
  have := (h.2.1 "AAPL" 5).1
  rwa [if_pos h5] at this

/-- **C1.**  From an empty cache, `lookup` fetches the Recent (compact)
series first; a date present in it is answered from it with no Full
fetch (exactly one fetch, the compact one); a date absent from Recent
triggers exactly one Full fetch after the Recent one (exactly two
fetches, compact then full) and the bar found in Full is returned. -/
theorem lookup_compact_then_full :
    (∀ (w : World) (s k date ds : String) (dfC : List Bar) (b : Bar),
      k ≠ "" → normDate date = some ds →
      parse_av_response (w.source s "compact") = .ok dfC →
      findDate dfC ds = some b →
        (lookup w st0 s date (some k)).1 =
            .ok { symbol := s, date := ds, open_ := b.open_, high := b.high,
                  low := b.low, close := b.close, volume := b.volume }
          ∧ (lookup w st0 s date (some k)).2.2 = [(s, "compact")])
  ∧ (∀ (w : World) (s k date ds : String) (dfC dfF : List Bar) (b : Bar),
      k ≠ "" → normDate date = some ds →
      parse_av_response (w.source s "compact") = .ok dfC →
      findDate dfC ds = none →
      parse_av_response (w.source s "full") = .ok dfF →
      findDate dfF ds = some b →
        (lookup w st0 s date (some k)).1 =
            .ok { symbol := s, date := ds, open_ := b.open_, high := b.high,
                  low := b.low, close := b.close, volume := b.volume }
          ∧ (lookup w st0 s date (some k)).2.2 = [(s, "compact"), (s, "full")]) := by
  constructor
  · intro w s k date ds dfC b hk hd hpC hfd
    have hg := _get_client_st0 w k hk
    constructor <;>
      simp [lookup, hg, hd, AlphaVantageClient.get_daily_time_series, findCache, hpC,
        hfd, mkBarResult]
  · intro w s k date ds dfC dfF b hk hd hpC hfd hpF hfd2
    have hg := _get_client_st0 w k hk
    have hkne := cache_key_compact_ne_full s
    constructor <;>
      simp [lookup, hg, hd, AlphaVantageClient.get_daily_time_series, findCache, hpC,
        hfd, hkne, hpF, hfd2, mkBarResult]

/-- Witness for `lookup_compact_then_full`: a compact hit on one fake
source, and a compact-miss/full-hit escalation on another. -/
theorem lookup_compact_then_full_witness :
    ((lookup wAAPL st0 "IBM" "2025-03-28" (some "key")).1 =
        .ok { symbol := "IBM", date := "2025-03-28", open_ := 22167, high := 22381,
              low := 21768, close := 21790, volume := 39818617 }
      ∧ (lookup wAAPL st0 "IBM" "2025-03-28" (some "key")).2.2 = [("IBM", "compact")])
  ∧ ((lookup wHist st0 "AAPL" "1999-01-04" (some "key")).1 =
        .ok { symbol := "AAPL", date := "1999-01-04", open_ := 100, high := 110,
              low := 90, close := 105, volume := 1000 }
      ∧ (lookup wHist st0 "AAPL" "1999-01-04" (some "key")).2.2 =
          [("AAPL", "compact"), ("AAPL", "full")]) := by
  constructor
  · exact lookup_compact_then_full.1 wAAPL "IBM" "key" "2025-03-28" "2025-03-28"
      [aaplBar] aaplBar (by decide) (by decide) (by decide) (by decide)
  · exact lookup_compact_then_full.2 wHist "AAPL" "key" "1999-01-04" "1999-01-04"
      [aaplBar] [aaplBar, oldBar] oldBar (by decide) (by decide) (by decide) (by decide)
      (by decide) (by decide)

/-- **C5 counterexample.**  The not-found failure and the malformed-date
(invalid-argument) failure are raised as the same Python class,
`ValueError`: a handler that catches the invalid-argument error
necessarily also catches the not-found error, so the two are not distinct
catchable conditions. -/
theorem notfound_conflated_with_invalid_argument :
    errClassOf (lookup wAAPL st0 "AAPL" "1999-01-04" (some "k")).1 = "ValueError"
  ∧ errClassOf (lookup wAAPL st0 "AAPL" "bad" (some "k")).1 = "ValueError" :=
  ⟨by decide, by decide⟩

/-- **C5 (amended).**  For a well-formed date absent from both series,
`lookup` fails with a `ValueError` naming the symbol and the date.  This
condition is distinct in class from `SourceError` (every fetch-pipeline
failure is a plain `Exception`, and `"ValueError" ≠ "Exception"`), but it
shares the `ValueError` class with the malformed-date error, from which
it is distinguishable only by message. -/
theorem notfound_error_shape :
    (∀ (w : World) (s k date ds : String) (dfC dfF : List Bar),
      k ≠ "" → normDate date = some ds →
      parse_av_response (w.source s "compact") = .ok dfC → findDate dfC ds = none →
      parse_av_response (w.source s "full") = .ok dfF → findDate dfF ds = none →
        (lookup w st0 s date (some k)).1 =
          .error (.valueError ("No data available for " ++ s ++ " on " ++ ds)))
  ∧ (∀ (r : FetchOutcome) (e : PyExn), parse_av_response r = .error e →
      e.className = "Exception")
  ∧ (∀ (w : World) (st : ModuleState) (api : Option String) (c : AlphaVantageClient)
        (st1 : ModuleState) (s date : String),
      _get_client w st api = .ok (c, st1) → normDate date = none →
        errClassOf (lookup w st s date api).1 = "ValueError")
  ∧ (∀ (m m' : String), (PyExn.valueError m).className ≠ (PyExn.exception m').className) := by
  refine ⟨?_, parse_av_response_error_class, ?_, ?_⟩
  · intro w s k date ds dfC dfF hk hd hpC hfd hpF hfd2
    have hg := _get_client_st0 w k hk
    have hkne := cache_key_compact_ne_full s
    simp [lookup, hg, hd, AlphaVantageClient.get_daily_time_series, findCache, hpC,
      hfd, hkne, hpF, hfd2]
  · intro w st api c st1 s date hg hd
    simp [lookup, hg, hd, errClassOf, PyExn.className]
  · intro m m'
    simp [PyExn.className]

/-- Witness for `notfound_error_shape` on concrete inputs. -/
theorem notfound_error_shape_witness :
    (lookup wAAPL st0 "MSFT" "2001-09-10" (some "key")).1 =
        .error (.valueError "No data available for MSFT on 2001-09-10")
  ∧ (PyExn.exception "API request failed with status code 500: oops").className =
      "Exception"
  ∧ errClassOf (lookup wAAPL st0 "MSFT" "2025-13-01" (some "key")).1 = "ValueError"
  ∧ (PyExn.valueError "a").className ≠ (PyExn.exception "b").className := by
  refine ⟨?_, ?_, ?_, ?_⟩
  · have h := notfound_error_shape.1 wAAPL "MSFT" "key" "2001-09-10" "2001-09-10"
      [aaplBar] [aaplBar] (by decide) (by decide) (by decide) (by decide) (by decide)
      (by decide)
    have e1 : "No data available for " ++ "MSFT" ++ " on " ++ "2001-09-10" =
        "No data available for MSFT on 2001-09-10" := by decide
    rwa [e1] at h
  · exact notfound_error_shape.2.1 (src500 "A" "compact")
      (.exception "API request failed with status code 500: oops") (by decide)
  · exact notfound_error_shape.2.2.1 wAAPL st0 (some "key") _ _ "MSFT" "2025-13-01"
      (_get_client_st0 wAAPL "key" (by decide)) (by decide)
  · exact notfound_error_shape.2.2.2 "a" "b"

/-- **C10.**  The cache key upper-cases the symbol, so the cache is
case-insensitive in the symbol: after a successful fetch for `s`, a query
for any letter-case variant `t` (same upper-case form) at the same
resolution is served from the same cache entry with no new fetch — both
at the client level and through `get_min`, where the second query also
returns the identical result (both echo the shared upper-case form). -/
theorem cache_case_insensitive_symbol :
    (∀ (c : AlphaVantageClient) (src : Source) (s t o : String) (df : List Bar)
        (c1 : AlphaVantageClient) (l1 : List (String × String)),
      pyUpper t = pyUpper s →
      c.get_daily_time_series src s o = (.ok df, c1, l1) →
        c1.get_daily_time_series src t o = (.ok df, c1, []))
  ∧ (∀ (w : World) (s t k : String) (n : Int) (df : List Bar),
      k ≠ "" → pyUpper t = pyUpper s →
      parse_av_response (w.source s (if n ≤ 100 then "compact" else "full")) = .ok df →
        (get_min w (get_min w st0 s n (some k)).2.1 t n (some k)).1 =
            (get_min w st0 s n (some k)).1
          ∧ (get_min w (get_min w st0 s n (some k)).2.1 t n (some k)).2.2 = []) := by
  constructor
  · intro c src s t o df c1 l1 hup h
    have hkey : cache_key t o = cache_key s o := by simp [cache_key, hup]
    cases hf : findCache c.cache (cache_key s o) with
    | some df0 =>
      rw [get_dts_hit c src s o df0 hf] at h
      simp only [Prod.mk.injEq, Except.ok.injEq] at h
      obtain ⟨h1, h2, h3⟩ := h
      subst h1
      subst h2
      exact get_dts_hit _ src t o df0 (by rw [hkey]; exact hf)
    | none =>
      cases hp : parse_av_response (src s o) with
      | error e =>
        rw [get_dts_miss_err c src s o e hf hp] at h
        simp at h
      | ok df0 =>
        rw [get_dts_miss_ok c src s o df0 hf hp] at h
        simp only [Prod.mk.injEq, Except.ok.injEq] at h
        obtain ⟨h1, h2, h3⟩ := h
        subst h1
        subst h2
        exact get_dts_hit _ src t o df0
          (by show findCache ((cache_key s o, df0) :: c.cache) (cache_key t o) = some df0
              rw [hkey]
              exact findCache_head _ _ _)
  · intro w s t k n df hk hup hp
    have hg := _get_client_st0 w k hk
    have hkey : cache_key t (if n ≤ 100 then "compact" else "full") =
        cache_key s (if n ≤ 100 then "compact" else "full") := by simp [cache_key, hup]
    have hfetch := get_dts_miss_ok { api_key := k, cache := [] } w.source s
      (if n ≤ 100 then "compact" else "full") df rfl hp
    have hg2 := _get_client_same_key w
      { api_key := k, cache := [(cache_key s (if n ≤ 100 then "compact" else "full"), df)] }
      (some k)
    have hfetch2 := get_dts_hit
      { api_key := k, cache := [(cache_key s (if n ≤ 100 then "compact" else "full"), df)] }
      w.source t (if n ≤ 100 then "compact" else "full") df
      (by rw [hkey]; exact findCache_head _ _ _)
    cases hidx : idxmin_low (headPy n df) with
    | error e =>
      constructor <;> simp [get_min, hg, hfetch, setClient, hg2, hfetch2, hidx]
    | ok b =>
      constructor <;> simp [get_min, hg, hfetch, setClient, hg2, hfetch2, hidx, hup]

/-- Witness for `cache_case_insensitive_symbol`: fetch as `"aapl"`, then
query `"AAPL"` — served from cache, no fetch, identical result. -/
theorem cache_case_insensitive_symbol_witness :
    (({ api_key := "k", cache := [(cache_key "aapl" "compact", [aaplBar])] } :
        AlphaVantageClient).get_daily_time_series srcAAPL "AAPL" "compact" =
      (.ok [aaplBar],
       { api_key := "k", cache := [(cache_key "aapl" "compact", [aaplBar])] }, []))
  ∧ ((get_min wAAPL (get_min wAAPL st0 "aapl" 3 (some "k")).2.1 "AAPL" 3 (some "k")).1 =
        (get_min wAAPL st0 "aapl" 3 (some "k")).1
      ∧ (get_min wAAPL (get_min wAAPL st0 "aapl" 3 (some "k")).2.1 "AAPL" 3 (some "k")).2.2 =
        []) := by
  constructor
  · exact cache_case_insensitive_symbol.1
      { api_key := "k", cache := [] } srcAAPL "aapl" "AAPL" "compact" [aaplBar]
      { api_key := "k", cache := [(cache_key "aapl" "compact", [aaplBar])] }
      [("aapl", "compact")] (by decide) (by decide)
  · exact cache_case_insensitive_symbol.2 wAAPL "aapl" "AAPL" "k" 3 [aaplBar]
      (by decide) (by decide) (by decide)

/-- **C8.**  Against an unchanged source, two consecutive identical
queries return identical results, and only the first triggers remote
fetches: `get_min`/`get_max` fetch exactly once in total (the second call
logs no fetch), and a repeated `lookup` logs no fetch the second time,
the first having fetched each needed (symbol, resolution) key exactly
once; nothing ever evicts the installed entries. -/
theorem repeated_queries_cached :
    (∀ (w : World) (s k : String) (n : Int) (df : List Bar),
      k ≠ "" →
      parse_av_response (w.source s (if n ≤ 100 then "compact" else "full")) = .ok df →
        (get_min w (get_min w st0 s n (some k)).2.1 s n (some k)).1 =
            (get_min w st0 s n (some k)).1
          ∧ (get_min w st0 s n (some k)).2.2 =
              [(s, if n ≤ 100 then "compact" else "full")]
          ∧ (get_min w (get_min w st0 s n (some k)).2.1 s n (some k)).2.2 = [])
  ∧ (∀ (w : World) (s k : String) (n : Int) (df : List Bar),
      k ≠ "" →
      parse_av_response (w.source s (if n ≤ 100 then "compact" else "full")) = .ok df →
        (get_max w (get_max w st0 s n (some k)).2.1 s n (some k)).1 =
            (get_max w st0 s n (some k)).1
          ∧ (get_max w st0 s n (some k)).2.2 =
              [(s, if n ≤ 100 then "compact" else "full")]
          ∧ (get_max w (get_max w st0 s n (some k)).2.1 s n (some k)).2.2 = [])
  ∧ (∀ (w : World) (s k date ds : String) (dfC dfF : List Bar),
      k ≠ "" → normDate date = some ds →
      parse_av_response (w.source s "compact") = .ok dfC →
      parse_av_response (w.source s "full") = .ok dfF →
        (lookup w (lookup w st0 s date (some k)).2.1 s date (some k)).1 =
            (lookup w st0 s date (some k)).1
          ∧ (lookup w (lookup w st0 s date (some k)).2.1 s date (some k)).2.2 = []
          ∧ ((lookup w st0 s date (some k)).2.2 = [(s, "compact")]
              ∨ (lookup w st0 s date (some k)).2.2 = [(s, "compact"), (s, "full")])) := by
  refine ⟨?_, ?_, ?_⟩
  · intro w s k n df hk hp
    have hg := _get_client_st0 w k hk
    have hfetch := get_dts_miss_ok { api_key := k, cache := [] } w.source s
      (if n ≤ 100 then "compact" else "full") df rfl hp
    have hg2 := _get_client_same_key w
      { api_key := k, cache := [(cache_key s (if n ≤ 100 then "compact" else "full"), df)] }
      (some k)
    have hfetch2 := get_dts_hit
      { api_key := k, cache := [(cache_key s (if n ≤ 100 then "compact" else "full"), df)] }
      w.source s (if n ≤ 100 then "compact" else "full") df (findCache_head _ _ _)
    cases hidx : idxmin_low (headPy n df) with
    | error e =>
      refine ⟨?_, ?_, ?_⟩ <;> simp [get_min, hg, hfetch, setClient, hg2, hfetch2, hidx]
    | ok b =>
      refine ⟨?_, ?_, ?_⟩ <;> simp [get_min, hg, hfetch, setClient, hg2, hfetch2, hidx]
  · intro w s k n df hk hp
    have hg := _get_client_st0 w k hk
    have hfetch := get_dts_miss_ok { api_key := k, cache := [] } w.source s
      (if n ≤ 100 then "compact" else "full") df rfl hp
    have hg2 := _get_client_same_key w
      { api_key := k, cache := [(cache_key s (if n ≤ 100 then "compact" else "full"), df)] }
      (some k)
    have hfetch2 := get_dts_hit
      { api_key := k, cache := [(cache_key s (if n ≤ 100 then "compact" else "full"), df)] }
      w.source s (if n ≤ 100 then "compact" else "full") df (findCache_head _ _ _)
    cases hidx : idxmax_high (headPy n df) with
    | error e =>
      refine ⟨?_, ?_, ?_⟩ <;> simp [get_max, hg, hfetch, setClient, hg2, hfetch2, hidx]
    | ok b =>
      refine ⟨?_, ?_, ?_⟩ <;> simp [get_max, hg, hfetch, setClient, hg2, hfetch2, hidx]
  · intro w s k date ds dfC dfF hk hd hpC hpF
    have hg := _get_client_st0 w k hk
    have hfetchC := get_dts_miss_ok { api_key := k, cache := [] } w.source s "compact"
      dfC rfl hpC
    cases hfd : findDate dfC ds with
    | some b =>
      have hg2 := _get_client_same_key w
        { api_key := k, cache := [(cache_key s "compact", dfC)] } (some k)
      have hfetchC2 := get_dts_hit { api_key := k, cache := [(cache_key s "compact", dfC)] }
        w.source s "compact" dfC (findCache_head _ _ _)
      refine ⟨?_, ?_, Or.inl ?_⟩ <;>
        simp [lookup, hg, hd, hfetchC, hfd, setClient, hg2, hfetchC2]
    | none =>
      have hkne := cache_key_compact_ne_full s
      have hkne2 : cache_key s "full" ≠ cache_key s "compact" := fun h => hkne h.symm
      have hfetchF := get_dts_miss_ok { api_key := k, cache := [(cache_key s "compact", dfC)] }
        w.source s "full" dfF (by simp [findCache, hkne]) hpF
      have hg2 := _get_client_same_key w
        { api_key := k,
          cache := [(cache_key s "full", dfF), (cache_key s "compact", dfC)] } (some k)
      have hfetchC2 := get_dts_hit
        { api_key := k, cache := [(cache_key s "full", dfF), (cache_key s "compact", dfC)] }
        w.source s "compact" dfC (by simp [findCache, hkne2])
      have hfetchF2 := get_dts_hit
        { api_key := k, cache := [(cache_key s "full", dfF), (cache_key s "compact", dfC)] }
        w.source s "full" dfF (findCache_head _ _ _)
      cases hfd2 : findDate dfF ds with
      | some b =>
        refine ⟨?_, ?_, Or.inr ?_⟩ <;>
          simp [lookup, hg, hd, hfetchC, hfd, setClient, hfetchF, hfd2, hg2, hfetchC2,
            hfetchF2]
      | none =>
        refine ⟨?_, ?_, Or.inr ?_⟩ <;>
          simp [lookup, hg, hd, hfetchC, hfd, setClient, hfetchF, hfd2, hg2, hfetchC2,
            hfetchF2]

/-- Witness for `repeated_queries_cached` on the concrete fake sources. -/
theorem repeated_queries_cached_witness :
    ((get_min wAAPL (get_min wAAPL st0 "GOOG" 7 (some "k")).2.1 "GOOG" 7 (some "k")).1 =
        (get_min wAAPL st0 "GOOG" 7 (some "k")).1
      ∧ (get_min wAAPL st0 "GOOG" 7 (some "k")).2.2 = [("GOOG", "compact")]
      ∧ (get_min wAAPL (get_min wAAPL st0 "GOOG" 7 (some "k")).2.1 "GOOG" 7 (some "k")).2.2 = [])
  ∧ ((get_max wAAPL (get_max wAAPL st0 "GOOG" 7 (some "k")).2.1 "GOOG" 7 (some "k")).1 =
        (get_max wAAPL st0 "GOOG" 7 (some "k")).1
      ∧ (get_max wAAPL st0 "GOOG" 7 (some "k")).2.2 = [("GOOG", "compact")]
      ∧ (get_max wAAPL (get_max wAAPL st0 "GOOG" 7 (some "k")).2.1 "GOOG" 7 (some "k")).2.2 = [])
  ∧ ((lookup wHist (lookup wHist st0 "AAPL" "1999-01-04" (some "k")).2.1 "AAPL"
        "1999-01-04" (some "k")).1 = (lookup wHist st0 "AAPL" "1999-01-04" (some "k")).1
      ∧ (lookup wHist (lookup wHist st0 "AAPL" "1999-01-04" (some "k")).2.1 "AAPL"
          "1999-01-04" (some "k")).2.2 = []
      ∧ ((lookup wHist st0 "AAPL" "1999-01-04" (some "k")).2.2 = [("AAPL", "compact")]
          ∨ (lookup wHist st0 "AAPL" "1999-01-04" (some "k")).2.2 =
              [("AAPL", "compact"), ("AAPL", "full")])) := by
  refine ⟨?_, ?_, ?_⟩
  · have h := repeated_queries_cached.1 wAAPL "GOOG" "k" 7 [aaplBar] (by decide) (by decide)
    have h7 : ((7 : Int) ≤ 100) := by decide
    rwa [if_pos h7] at h
  · have h := repeated_queries_cached.2.1 wAAPL "GOOG" "k" 7 [aaplBar] (by decide) (by decide)
    have h7 : ((7 : Int) ≤ 100) := by decide
    rwa [if_pos h7] at h
  · exact repeated_queries_cached.2.2 wHist "AAPL" "k" "1999-01-04" "1999-01-04"
      [aaplBar] [aaplBar, oldBar] (by decide) (by decide) (by decide) (by decide)

/-- **C9 counterexample.**  For the lower-case input `"aapl"`, `lookup`
echoes the symbol exactly as passed (`"aapl"`), while `get_min` echoes
the upper-cased form (`"AAPL"`): the three operations do not canonicalize
the echoed symbol consistently. -/
theorem symbol_echo_inconsistent :
    (lookup wAAPL st0 "aapl" "2025-03-28" (some "k")).1 =
        .ok { symbol := "aapl", date := "2025-03-28", open_ := 22167, high := 22381,
              low := 21768, close := 21790, volume := 39818617 }
  ∧ (get_min wAAPL st0 "aapl" 1 (some "k")).1 =
      .ok { symbol := "AAPL", min_price := 21768, date := "2025-03-28",
            period := "last 1 trading days" }
  ∧ ("aapl" : String) ≠ "AAPL" :=
  ⟨by decide, by decide, by decide⟩

/-- **C9 (amended).**  `lookup` echoes the input symbol unchanged, while
`get_min` and `get_max` echo its upper-cased form; the three agree
exactly when the input is already upper-case, as in the end-to-end
scenario, where `lookup("AAPL", "2025-03-28")` returns the fake-source
record with symbol `"AAPL"`. -/
theorem symbol_echo_forms :
    (∀ (w : World) (st : ModuleState) (s date : String) (api : Option String)
        (r : BarResult) (st2 : ModuleState) (l : List (String × String)),
      lookup w st s date api = (.ok r, st2, l) → r.symbol = s)
  ∧ (∀ (w : World) (st : ModuleState) (s : String) (n : Int) (api : Option String)
        (r : MinResult) (st2 : ModuleState) (l : List (String × String)),
      get_min w st s n api = (.ok r, st2, l) → r.symbol = pyUpper s)
  ∧ (∀ (w : World) (st : ModuleState) (s : String) (n : Int) (api : Option String)
        (r : MaxResult) (st2 : ModuleState) (l : List (String × String)),
      get_max w st s n api = (.ok r, st2, l) → r.symbol = pyUpper s)
  ∧ (lookup wAAPL st0 "AAPL" "2025-03-28" (some "key")).1 =
      .ok { symbol := "AAPL", date := "2025-03-28", open_ := 22167, high := 22381,
            low := 21768, close := 21790, volume := 39818617 } := by
  refine ⟨?_, ?_, ?_, by decide⟩
  · intro w st s date api r st2 l h
    cases hg : _get_client w st api with
    | error e => simp [lookup, hg] at h
    | ok p =>
      obtain ⟨c, st1⟩ := p
      cases hd : normDate date with
      | none => simp [lookup, hg, hd] at h
      | some ds =>
        cases h1 : c.get_daily_time_series w.source s "compact" with
        | mk r1 q1 =>
          obtain ⟨c1, log1⟩ := q1
          cases r1 with
          | error e => simp [lookup, hg, hd, h1] at h
          | ok df =>
            cases hfd : findDate df ds with
            | some b =>
              have hres : lookup w st s date api =
                  (.ok (mkBarResult s ds b), setClient st1 c1, log1) := by
                simp [lookup, hg, hd, h1, hfd]
              rw [h] at hres
              injection hres with ha hb
              injection ha with ha
              simp [ha, mkBarResult]
            | none =>
              cases h2 : c1.get_daily_time_series w.source s "full" with
              | mk r2 q2 =>
                obtain ⟨c2, log2⟩ := q2
                cases r2 with
                | error e => simp [lookup, hg, hd, h1, hfd, h2] at h
                | ok df2 =>
                  cases hfd2 : findDate df2 ds with
                  | some b =>
                    have hres : lookup w st s date api =
                        (.ok (mkBarResult s ds b), setClient st1 c2, log1 ++ log2) := by
                      simp [lookup, hg, hd, h1, hfd, h2, hfd2]
                    rw [h] at hres
                    injection hres with ha hb
                    injection ha with ha
                    simp [ha, mkBarResult]
                  | none => simp [lookup, hg, hd, h1, hfd, h2, hfd2] at h
  · intro w st s n api r st2 l h
    cases hg : _get_client w st api with
    | error e => simp [get_min, hg] at h
    | ok p =>
      obtain ⟨c, st1⟩ := p
      cases h1 : c.get_daily_time_series w.source s (if n ≤ 100 then "compact" else "full") with
      | mk r1 q1 =>
        obtain ⟨c1, log1⟩ := q1
        cases r1 with
        | error e => simp [get_min, hg, h1] at h
        | ok df =>
          cases hidx : idxmin_low (headPy n df) with
          | error e => simp [get_min, hg, h1, hidx] at h
          | ok b =>
            have hres : get_min w st s n api =
                (.ok { symbol := pyUpper s, min_price := b.low, date := b.date,
                       period := "last " ++ toString n ++ " trading days" },
                 setClient st1 c1, log1) := by
              simp [get_min, hg, h1, hidx]
            rw [h] at hres
            injection hres with ha hb
            injection ha with ha
            rw [ha]
  · intro w st s n api r st2 l h
    cases hg : _get_client w st api with
    | error e => simp [get_max, hg] at h
    | ok p =>
      obtain ⟨c, st1⟩ := p
      cases h1 : c.get_daily_time_series w.source s (if n ≤ 100 then "compact" else "full") with
      | mk r1 q1 =>
        obtain ⟨c1, log1⟩ := q1
        cases r1 with
        | error e => simp [get_max, hg, h1] at h
        | ok df =>
          cases hidx : idxmax_high (headPy n df) with
          | error e => simp [get_max, hg, h1, hidx] at h
          | ok b =>
            have hres : get_max w st s n api =
                (.ok { symbol := pyUpper s, max_price := b.high, date := b.date,
                       period := "last " ++ toString n ++ " trading days" },
                 setClient st1 c1, log1) := by
              simp [get_max, hg, h1, hidx]
            rw [h] at hres
            injection hres with ha hb
            injection ha with ha
            rw [ha]

/-- Witness for `symbol_echo_forms` on concrete runs of the three
operations with a lower-case input symbol. -/
theorem symbol_echo_forms_witness :
    ({ symbol := "msft", date := "2025-03-28", open_ := 22167, high := 22381,
       low := 21768, close := 21790, volume := 39818617 } : BarResult).symbol = "msft"
  ∧ ({ symbol := "MSFT", min_price := 21768, date := "2025-03-28",
       period := "last 2 trading days" } : MinResult).symbol = pyUpper "msft"
  ∧ ({ symbol := "MSFT", max_price := 22381, date := "2025-03-28",
       period := "last 2 trading days" } : MaxResult).symbol = pyUpper "msft" := by
  refine ⟨?_, ?_, ?_⟩
  · exact symbol_echo_forms.1 wAAPL st0 "msft" "2025-03-28" (some "k")
      { symbol := "msft", date := "2025-03-28", open_ := 22167, high := 22381,
        low := 21768, close := 21790, volume := 39818617 }
      { client := some { api_key := "k", cache := [("MSFT_daily_compact", [aaplBar])] },
        client_api_key := some "k" }
      [("msft", "compact")] (by decide)
  · exact symbol_echo_forms.2.1 wAAPL st0 "msft" 2 (some "k")
      { symbol := "MSFT", min_price := 21768, date := "2025-03-28",
        period := "last 2 trading days" }
      { client := some { api_key := "k", cache := [("MSFT_daily_compact", [aaplBar])] },
        client_api_key := some "k" }
      [("msft", "compact")] (by decide)
  · exact symbol_echo_forms.2.2.1 wAAPL st0 "msft" 2 (some "k")
      { symbol := "MSFT", max_price := 22381, date := "2025-03-28",
        period := "last 2 trading days" }
      { client := some { api_key := "k", cache := [("MSFT_daily_compact", [aaplBar])] },
        client_api_key := some "k" }
      [("msft", "compact")] (by decide)

/-- **C3.**  On a non-empty date-descending series (unique dates follow
from strict descent), for positive `n`, `get_min` succeeds — also when
the series holds fewer than `n` bars — and returns the smallest `low`
over the first `min n (length)` bars together with the date of the most
recent bar attaining it (ties break to the most recent date); `get_max`
is symmetric over `high`. -/
theorem window_extrema_correct :
    (∀ (w : World) (s k : String) (n : Int) (df : List Bar),
      k ≠ "" → 0 < n → df ≠ [] → df.Pairwise DescPair →
      parse_av_response (w.source s (if n ≤ 100 then "compact" else "full")) = .ok df →
      ∃ r : MinResult,
        (get_min w st0 s n (some k)).1 = .ok r
        ∧ (∃ b, b ∈ headPy n df ∧ b.date = r.date ∧ b.low = r.min_price)
        ∧ (∀ b ∈ headPy n df, r.min_price ≤ b.low)
        ∧ (∀ b ∈ headPy n df, b.low = r.min_price → dateLe b.date r.date)
        ∧ (headPy n df).length = min n.toNat df.length)
  ∧ (∀ (w : World) (s k : String) (n : Int) (df : List Bar),
      k ≠ "" → 0 < n → df ≠ [] → df.Pairwise DescPair →
      parse_av_response (w.source s (if n ≤ 100 then "compact" else "full")) = .ok df →
      ∃ r : MaxResult,
        (get_max w st0 s n (some k)).1 = .ok r
        ∧ (∃ b, b ∈ headPy n df ∧ b.date = r.date ∧ b.high = r.max_price)
        ∧ (∀ b ∈ headPy n df, b.high ≤ r.max_price)
        ∧ (∀ b ∈ headPy n df, b.high = r.max_price → dateLe b.date r.date)
        ∧ (headPy n df).length = min n.toNat df.length) := by
  constructor
  · intro w s k n df hk hn hne hdesc hpr
    have hg := _get_client_st0 w k hk
    have hfetch := get_dts_miss_ok { api_key := k, cache := [] } w.source s
      (if n ≤ 100 then "compact" else "full") df rfl hpr
    have hsub : headPy n df = df.take n.toNat := headPy_pos n df (le_of_lt hn)
    have hlen : (headPy n df).length = min n.toNat df.length := by
      rw [hsub, List.length_take]
    obtain ⟨b0, bs, hcons⟩ : ∃ b0 bs, headPy n df = b0 :: bs := by
      rw [hsub]
      cases df with
      | nil => exact absurd rfl hne
      | cons a t =>
        obtain ⟨m, hm⟩ : ∃ m, n.toNat = m + 1 := ⟨n.toNat - 1, by omega⟩
        exact ⟨a, t.take m, by rw [hm, List.take_succ_cons]⟩
    have hidx : idxmin_low (headPy n df) = .ok (argmin_low b0 bs) := by
      rw [hcons]
      rfl
    have hpair : (b0 :: bs).Pairwise DescPair := by
      rw [← hcons]
      exact headPy_pairwise n df hdesc
    refine ⟨{ symbol := pyUpper s, min_price := (argmin_low b0 bs).low,
              date := (argmin_low b0 bs).date,
              period := "last " ++ toString n ++ " trading days" },
            ?_, ?_, ?_, ?_, hlen⟩
    · simp [get_min, hg, hfetch, hidx]
    · refine ⟨argmin_low b0 bs, ?_, rfl, rfl⟩
      rw [hcons]
      rcases argmin_low_mem b0 bs with h | h
      · rw [h]
        exact List.mem_cons_self _ _
      · exact List.mem_cons_of_mem _ h
    · intro b hb
      rw [hcons] at hb
      obtain ⟨h1, h2⟩ := argmin_low_le b0 bs
      rcases List.mem_cons.mp hb with hbe | hb
      · exact hbe ▸ h1
      · exact h2 b hb
    · intro b hb htie
      exact argmin_low_tie bs b0 hpair b (List.mem_cons.mp (hcons ▸ hb)) htie
  · intro w s k n df hk hn hne hdesc hpr
    have hg := _get_client_st0 w k hk
    have hfetch := get_dts_miss_ok { api_key := k, cache := [] } w.source s
      (if n ≤ 100 then "compact" else "full") df rfl hpr
    have hsub : headPy n df = df.take n.toNat := headPy_pos n df (le_of_lt hn)
    have hlen : (headPy n df).length = min n.toNat df.length := by
      rw [hsub, List.length_take]
    obtain ⟨b0, bs, hcons⟩ : ∃ b0 bs, headPy n df = b0 :: bs := by
      rw [hsub]
      cases df with
      | nil => exact absurd rfl hne
      | cons a t =>
        obtain ⟨m, hm⟩ : ∃ m, n.toNat = m + 1 := ⟨n.toNat - 1, by omega⟩
        exact ⟨a, t.take m, by rw [hm, List.take_succ_cons]⟩
    have hidx : idxmax_high (headPy n df) = .ok (argmax_high b0 bs) := by
      rw [hcons]
      rfl
    have hpair : (b0 :: bs).Pairwise DescPair := by
      rw [← hcons]
      exact headPy_pairwise n df hdesc
    refine ⟨{ symbol := pyUpper s, max_price := (argmax_high b0 bs).high,
              date := (argmax_high b0 bs).date,
              period := "last " ++ toString n ++ " trading days" },
            ?_, ?_, ?_, ?_, hlen⟩
    · simp [get_max, hg, hfetch, hidx]
    · refine ⟨argmax_high b0 bs, ?_, rfl, rfl⟩
      rw [hcons]
      rcases argmax_high_mem b0 bs with h | h
      · rw [h]
        exact List.mem_cons_self _ _
      · exact List.mem_cons_of_mem _ h
    · intro b hb
      rw [hcons] at hb
      obtain ⟨h1, h2⟩ := argmax_high_le b0 bs
      rcases List.mem_cons.mp hb with hbe | hb
      · exact hbe ▸ h1
      · exact h2 b hb
    · intro b hb htie
      exact argmax_high_tie bs b0 hpair b (List.mem_cons.mp (hcons ▸ hb)) htie

/-- Witness for `window_extrema_correct` on the spec's tie-break series
(`low` tie between the two most recent bars, `n = 3`). -/
theorem window_extrema_correct_witness :
    (∃ r : MinResult,
        (get_min wTie st0 "AAPL" 3 (some "k")).1 = .ok r
        ∧ (∃ b, b ∈ headPy 3 [tieBar1, tieBar2, tieBar3] ∧ b.date = r.date
            ∧ b.low = r.min_price)
        ∧ (∀ b ∈ headPy 3 [tieBar1, tieBar2, tieBar3], r.min_price ≤ b.low)
        ∧ (∀ b ∈ headPy 3 [tieBar1, tieBar2, tieBar3],
            b.low = r.min_price → dateLe b.date r.date)
        ∧ (headPy 3 [tieBar1, tieBar2, tieBar3]).length =
            min (Int.toNat 3) [tieBar1, tieBar2, tieBar3].length)
  ∧ (∃ r : MaxResult,
        (get_max wTie st0 "AAPL" 3 (some "k")).1 = .ok r
        ∧ (∃ b, b ∈ headPy 3 [tieBar1, tieBar2, tieBar3] ∧ b.date = r.date
            ∧ b.high = r.max_price)
        ∧ (∀ b ∈ headPy 3 [tieBar1, tieBar2, tieBar3], b.high ≤ r.max_price)
        ∧ (∀ b ∈ headPy 3 [tieBar1, tieBar2, tieBar3],
            b.high = r.max_price → dateLe b.date r.date)
        ∧ (headPy 3 [tieBar1, tieBar2, tieBar3]).length =
            min (Int.toNat 3) [tieBar1, tieBar2, tieBar3].length) := by
  constructor
  · exact window_extrema_correct.1 wTie "AAPL" "k" 3 [tieBar1, tieBar2, tieBar3]
      (by decide) (by decide) (by decide) (by decide) (by decide)
  · exact window_extrema_correct.2 wTie "AAPL" "k" 3 [tieBar1, tieBar2, tieBar3]
      (by decide) (by decide) (by decide) (by decide) (by decide)
